import Mathlib

/-!
Verification development for the subfs repository: a FUSE filesystem that
exposes a Subsonic music library read-only, streaming file contents on demand
and caching them on local disk under a size budget.

The development shallowly embeds the three source files:
- the streaming/cache engine (`SubFile.ReadAll` together with the global
  `fileCache` map and `cacheTotal` counter) from the monolithic revision;
- the periodic index refresher `cacheIndexes` from `subfs.go`;
- the directory materializer `SubDir.ReadDir`, the template-driven filename
  derivation and the read-only request handlers from the tree revision.

External collaborators (the gosubsonic client, the OS filesystem, the Go
template engine) are represented by explicit environment records whose fields
hold the outcomes the collaborator would produce; the embedded code consumes
them exactly where the source performs the corresponding call.  Goroutine
bodies are embedded sequentially: the spawned fetch goroutine in `ReadAll`
runs to completion and the value it sends over `byteChan` is the value the
outer `select` returns (the interrupt arm is not modelled).
-/

set_option autoImplicit false

/-- Replacement of every occurrence of character `b` by `r`.  The source uses
Go `strings.Replace(s, b, "_", -1)` with the one-character patterns `"/"` and
`"\\"`; for one-character patterns that is exactly a characterwise map. -/
def replaceChar (s : String) (b r : Char) : String :=
  ⟨s.data.map (fun ch => if ch = b then r else ch)⟩

/-- Go map assignment `m[k] = v` on an association list: replace the binding
if the key is present, otherwise append a new binding. -/
def upsert {α β : Type} [DecidableEq α] : List (α × β) → α → β → List (α × β)
  | [], k, v => [(k, v)]
  | (k', v') :: rest, k, v =>
    if k' = k then (k, v) :: rest else (k', v') :: upsert rest k v

/-- Go map read `m[k]` on an association list. -/
def lookupA {α β : Type} [DecidableEq α] : List (α × β) → α → Option β
  | [], _ => none
  | (k', v') :: rest, k => if k' = k then some v' else lookupA rest k


namespace P0

/-!
Embedding of the streaming/cache engine of the monolithic revision.

Global mutable state used by `SubFile.ReadAll`: the cache map `fileCache`
(filename to open temporary file) and the running byte total `cacheTotal`.
The map's values (`os.File` handles) matter only through the filesystem
contents behind them, which the environment supplies at each read, so the
map is carried as its set of registered filenames.
-/

/-- Bytes, as delivered by `ioutil.ReadFile` / `ioutil.ReadAll`. -/
abbrev Bytes := List Nat

/-- The shared mutable cache state: registered filenames and running total. -/
structure CState where
  fileCache : List String
  cacheTotal : Int
  deriving DecidableEq, Repr

/-- SubFile represents a file in the Subsonic library (fields of the source
struct; `Created` is an opaque timestamp). -/
structure SubFile where
  ID : Int
  Created : Int
  FileName : String
  Size : Int
  deriving DecidableEq, Repr

/-- Outcomes of the external calls a single `ReadAll` performs, in source
order.  `readFile` is the `(buf, err)` pair returned by `ioutil.ReadFile` on
the cached backing file (consulted only on a cache hit); `openErr`/`readErr`/
`closeErr` are the error results of `subsonic.Stream`, `ioutil.ReadAll` and
`stream.Close`; `streamBytes` is the payload read on success; `tmpFileErr`
and `tmpWriteErr` are the error results of `ioutil.TempFile` and
`tmpFile.Write`.  Errors of `cFile.Close` are only logged and change nothing,
so they are not carried. -/
structure Env where
  readFile : Bytes × Option String
  openErr : Option String
  readErr : Option String
  streamBytes : Bytes
  closeErr : Option String
  tmpFileErr : Option String
  tmpWriteErr : Option String
  deriving DecidableEq, Repr

/-- Result of one `ReadAll`: either the goroutine panics (dereferencing a nil
error), or the call completes with a new cache state and the pair the outer
function returns — the value received from `byteChan` and the `fuse.Error`
(the `byteChan` arm of the `select` always returns a nil error). -/
inductive RdRes where
  | crash
  | ok (st : CState) (bytes : Option Bytes) (err : Option Int)
  deriving DecidableEq, Repr

/-- Go `strings.Contains`. -/
def containsSubstr (s sub : String) : Bool :=
  (List.range (s.data.length + 1)).any (fun i => sub.data.isPrefixOf (s.data.drop i))

/-- Go map membership `_, ok := fileCache[k]`. -/
def memCache (st : CState) (k : String) : Bool := st.fileCache.contains k

/-- The admission section of the goroutine body, entered after the fetched
bytes were sent: the three skip checks (cache already over budget, file would
overflow the budget, file above the fixed 50 MB per-file threshold) followed
by temporary-file creation, write, map registration and total increment. -/
def cachePhase (cacheSize : Int) (s : SubFile) (env : Env) (st : CState) : CState :=
  if st.cacheTotal > cacheSize * 1024 * 1024 then st
  else if st.cacheTotal + s.Size > cacheSize * 1024 * 1024 then st
  else
    -- threshold := 50
    if s.Size > (50 : Int) * 1024 * 1024 then st
    else
      match env.tmpFileErr with
      | some _ => st
      | none =>
        match env.tmpWriteErr with
        | some _ => st
        | none =>
          { fileCache := if st.fileCache.contains s.FileName then st.fileCache
                         else st.fileCache ++ [s.FileName],
            cacheTotal := st.cacheTotal + s.Size }

/-- The fetch section of the goroutine body: open the remote stream, read it,
close it.  Each failure logs and sends `nil` over `byteChan`, so the outer
caller receives `(nil, nil)`.  On success the bytes are sent and the
admission section runs afterwards. -/
def streamPhase (cacheSize : Int) (s : SubFile) (env : Env) (st : CState) : RdRes :=
  match env.openErr with
  | some _ => .ok st none none
  | none =>
    match env.readErr with
    | some _ => .ok st none none
    | none =>
      match env.closeErr with
      | some _ => .ok st none none
      | none => .ok (cachePhase cacheSize s env st) (some env.streamBytes) none

/-- SubFile.ReadAll of the monolithic revision, embedded sequentially.  On a
cache hit the backing file is read back: a non-empty buffer (or an empty one
with an error message other than "no such file or directory") is returned as
the cached content; an empty buffer with that message evicts the record
(map delete, total decrement, handle close) and falls through to the fetch;
an empty buffer with a nil error makes `err.Error()` panic. -/
def ReadAll (cacheSize : Int) (s : SubFile) (env : Env) (st : CState) : RdRes :=
  if memCache st s.FileName then
    if env.readFile.1.length = 0 then
      match env.readFile.2 with
      | none => .crash
      | some m =>
        if containsSubstr m "no such file or directory" then
          streamPhase cacheSize s env
            { fileCache := st.fileCache.erase s.FileName,
              cacheTotal := st.cacheTotal + (-1) * s.Size }
        else .ok st (some env.readFile.1) none
    else .ok st (some env.readFile.1) none
  else streamPhase cacheSize s env st

/-- A sequence of reads against the shared cache state; `none` when some
read panicked. -/
def runOps (cacheSize : Int) : List (SubFile × Env) → CState → Option CState
  | [], st => some st
  | (s, e) :: rest, st =>
    match ReadAll cacheSize s e st with
    | .crash => none
    | .ok st' _ _ => runOps cacheSize rest st'


end P0

namespace SFS

/-!
Embedding of `cacheIndexes` from `subfs.go`: the periodic refresh loop over
the `artistsIndex` map.  One `CycleEnv` holds the remote responses one loop
iteration would observe; running the loop against a list of cycle
environments truncates the infinite `for` loop to finitely many iterations.
The rendezvous send on `indexChan` and the 10-minute sleep separate the
cycles and carry no state, so they are not modelled.
-/

/-- gosubsonic.MusicFolder (fields used by `cacheIndexes`). -/
structure MusicFolder where
  ID : Int
  Name : String
  deriving DecidableEq, Repr

/-- gosubsonic.IndexArtist (fields used). -/
structure IndexArtist where
  ID : Int
  Name : String
  deriving DecidableEq, Repr

/-- The remote responses observed during one iteration of the loop:
`folders` is the result of `subsonic.GetMusicFolders` (`none` on error) and
`indexes fid` the result of `subsonic.GetIndexes(fid, -1)` — a list of index
groups, each carrying its artist list. -/
structure CycleEnv where
  folders : Option (List MusicFolder)
  indexes : Int → Option (List (List IndexArtist))

/-- The global `artistsIndex` map. -/
abbrev IndexMap := List (MusicFolder × List IndexArtist)

/-- The per-folder body of one cycle: a failed `GetIndexes` logs and
`continue`s, leaving the folder's cached data stale; a successful one
replaces `artistsIndex[folder]` with the flattened artist lists. -/
def refreshFolders (env : CycleEnv) (folders : List MusicFolder) (idx : IndexMap) :
    IndexMap :=
  folders.foldl
    (fun acc folder =>
      match env.indexes folder.ID with
      | none => acc
      | some ixs => upsert acc folder ixs.flatten)
    idx

/-- One iteration of the loop body: `none` when `GetMusicFolders` fails (the
source then logs and returns from `cacheIndexes`, ending the goroutine). -/
def runCycle (env : CycleEnv) (idx : IndexMap) : Option IndexMap :=
  match env.folders with
  | none => none
  | some fs => some (refreshFolders env fs idx)

/-- `cacheIndexes`, truncated to the given cycle environments.  Returns the
final `artistsIndex` together with the number of `GetMusicFolders` calls
performed.  A failed folder-list fetch makes the source `return`, so the
remaining cycles are never attempted. -/
def cacheIndexes : List CycleEnv → IndexMap → IndexMap × Nat
  | [], idx => (idx, 0)
  | c :: rest, idx =>
    match runCycle c idx with
    | none => (idx, 1)
    | some idx' =>
      let r := cacheIndexes rest idx'
      (r.1, r.2 + 1)

end SFS

namespace P1

/-!
Embedding of `SubDir.ReadDir` of the tree revision (ordinary, non-root,
non-folder nodes): converting a remote directory listing into directory
entries, the per-node `dirs`/`files` maps and the cover-art set.  The
filename template (`filenameTemplate.Execute`) is an external engine and is
passed as a function from the template context to an optional rendered
string (`none` embeds a template execution error, which the source logs and
skips).
-/

/-- gosubsonic.Audio (fields used by `ReadDir`). -/
structure Audio where
  ID : Int
  Created : Int
  Artist : String
  Album : String
  Title : String
  Suffix : String
  TranscodedSuffix : String
  Path : String
  Track : Int
  Size : Int
  DurationRaw : Int
  CoverArt : Int
  deriving DecidableEq, Repr

/-- gosubsonic.Video (fields used). -/
structure Video where
  ID : Int
  Created : Int
  Title : String
  Suffix : String
  Size : Int
  CoverArt : Int
  deriving DecidableEq, Repr

/-- gosubsonic.Directory entry as consumed by the sub-directory loop. -/
structure DirRecord where
  ID : Int
  Title : String
  CoverArt : Int
  deriving DecidableEq, Repr

/-- A remote directory listing (`subsonic.GetMusicDirectory` result). -/
structure Content where
  Directories : List DirRecord
  Audio : List Audio
  Video : List Video
  deriving DecidableEq, Repr

/-- SubFile of the tree revision, with the fields its literals populate in
`ReadDir`; omitted fields take the Go zero value. -/
structure SubFile where
  ID : Int
  Created : Int := 0
  FileName : String
  IsVideo : Bool := false
  IsArt : Bool := false
  Lossless : Bool := false
  Size : Int := 0
  deriving DecidableEq, Repr

/-- SubDir represents a directory in the filesystem (tree revision): id, the
root/folder role flags, and the lazily filled child maps. -/
inductive SubDir where
  | mk (ID : Int) (Root : Bool) (Folder : Bool)
      (dirs : List (String × SubDir)) (files : List (String × SubFile))

/-- NewSubDir: fresh node with empty child maps. -/
def NewSubDir (ID : Int) (Root : Bool) (Folder : Bool) : SubDir :=
  .mk ID Root Folder [] []

/-- Dirent kinds used by `ReadDir` (fuse.DT_Dir / fuse.DT_File). -/
inductive DType where
  | dir
  | file
  deriving DecidableEq, Repr

/-- fuse.Dirent (name and type). -/
structure Dirent where
  Name : String
  Typ : DType
  deriving DecidableEq, Repr

/-- The context struct handed to `filenameTemplate.Execute`: the raw audio
record plus flattened fields.  Only `Basename` depends on the variant being
emitted (its suffix is trimmed from the path); `Suffix` always carries the
original suffix. -/
structure FilenameCtx where
  A : Audio
  Artist : String
  Album : String
  Track : Int
  Title : String
  Suffix : String
  Path : String
  Basename : String
  deriving DecidableEq, Repr

/-- Go `strings.TrimSuffix`. -/
def trimSuffix (s suffix : String) : String :=
  if s.endsWith suffix then s.dropRight suffix.length else s

/-- The `badChars` loop: every `/` and `\` in a rendered name is replaced
with `_`. -/
def badChars : List Char := ['/', '\\']

/-- Sanitization applied after rendering a filename (and to sub-directory
titles and video names). -/
def sanitizeFilename (s : String) : String :=
  badChars.foldl (fun f b => replaceChar f b '_') s

/-- The `filenameCtx` literal built for audio record `a` when emitting the
variant with suffix `tsuffix`. -/
def ctxFor (a : Audio) (tsuffix : String) : FilenameCtx :=
  { A := a
    Artist := a.Artist
    Album := a.Album
    Track := a.Track
    Title := a.Title
    Suffix := a.Suffix
    Path := a.Path
    Basename := trimSuffix a.Path tsuffix }

/-- Estimated size for a variant whose reported size is zero: MP3 CBR 320
benchmark, `((DurationRaw * 320) / 8) * 1024` in Go int64 arithmetic. -/
def transcodeSize (a : Audio) (sz : Int) : Int :=
  if sz = 0 then ((a.DurationRaw * 320).tdiv 8) * 1024 else sz

/-- `lossless` flag for a variant: initialized true, cleared when the size
is zero (transcode to lossy). -/
def transcodeLossless (sz : Int) : Bool :=
  if sz = 0 then false else true

/-- The SubFile literal registered for audio `a`, variant `t`, under the
rendered-and-sanitized `filename`. -/
def audioEntry (a : Audio) (t : String × Int) (filename : String) : SubFile :=
  { ID := a.ID
    Created := a.Created
    FileName := filename
    IsVideo := false
    Lossless := transcodeLossless t.2
    Size := transcodeSize a t.2 }

/-- goset `Set.Add`: insert if not already present (insertion order kept for
`Enumerate`). -/
def addSet (s : List Int) (x : Int) : List Int :=
  if x ∈ s then s else s ++ [x]

/-- The accumulating state of one `ReadDir` call: the dirent slice to
return, the receiver's `dirs` and `files` maps, and the cover-art set. -/
structure Acc where
  directories : List Dirent
  dirs : List (String × SubDir)
  files : List (String × SubFile)
  coverArt : List Int

/-- Body of the sub-directory loop: sanitize the title, append a directory
entry, register a fresh child node, record the cover art. -/
def dirStep (acc : Acc) (dr : DirRecord) : Acc :=
  { directories := acc.directories ++ [⟨sanitizeFilename dr.Title, .dir⟩]
    dirs := upsert acc.dirs (sanitizeFilename dr.Title) (NewSubDir dr.ID false false)
    files := acc.files
    coverArt := addSet acc.coverArt dr.CoverArt }

/-- Body of the inner variant loop for one audio record: skip an empty
suffix, compute size/lossless, build the template context, render (skipping
the entry on failure), sanitize, then append the dirent, register the file
and record the cover art. -/
def audioVariantStep (render : FilenameCtx → Option String) (a : Audio)
    (acc : Acc) (t : String × Int) : Acc :=
  if t.1 = "" then acc
  else
    match render (ctxFor a t.1) with
    | none => acc
    | some fn =>
      { directories := acc.directories ++ [⟨sanitizeFilename fn, .file⟩]
        dirs := acc.dirs
        files := upsert acc.files (sanitizeFilename fn) (audioEntry a t (sanitizeFilename fn))
        coverArt := addSet acc.coverArt a.CoverArt }

/-- Body of the audio loop: each record is expanded over the two candidate
variants, the original `(Suffix, Size)` first and the transcoded
`(TranscodedSuffix, 0)` second. -/
def audioStep (render : FilenameCtx → Option String) (acc : Acc) (a : Audio) : Acc :=
  [(a.Suffix, a.Size), (a.TranscodedSuffix, (0 : Int))].foldl (audioVariantStep render a) acc

/-- Body of the video loop: fixed `"<title>.<suffix>"` name, sanitized. -/
def videoStep (acc : Acc) (v : Video) : Acc :=
  { directories := acc.directories ++ [⟨sanitizeFilename (v.Title ++ "." ++ v.Suffix), .file⟩]
    dirs := acc.dirs
    files := upsert acc.files (sanitizeFilename (v.Title ++ "." ++ v.Suffix))
      { ID := v.ID
        Created := v.Created
        FileName := sanitizeFilename (v.Title ++ "." ++ v.Suffix)
        Size := v.Size
        IsVideo := true }
    coverArt := addSet acc.coverArt v.CoverArt }

/-- Body of the cover-art loop: fixed `"<id>.jpg"` name; the registered
SubFile sets only `ID`, `FileName` and `IsArt`. -/
def artStep (acc : Acc) (c : Int) : Acc :=
  { directories := acc.directories ++ [⟨toString c ++ ".jpg", .file⟩]
    dirs := acc.dirs
    files := upsert acc.files (toString c ++ ".jpg")
      { ID := c
        FileName := toString c ++ ".jpg"
        IsArt := true }
    coverArt := acc.coverArt }

/-- SubDir.ReadDir on an ordinary node whose remote listing succeeded and
returned `content`: the sub-directory, audio and video loops over the
accumulating state, then one cover-art entry per distinct recorded id. -/
def ReadDir (render : FilenameCtx → Option String) (content : Content) : Acc :=
  let acc0 : Acc := ⟨[], [], [], []⟩
  let acc1 := content.Directories.foldl dirStep acc0
  let acc2 := content.Audio.foldl (audioStep render) acc1
  let acc3 := content.Video.foldl videoStep acc2
  acc3.coverArt.foldl artStep acc3

/-- Modelled from the external Go text/template engine: the template that
writes `A.Track`, a dash, `A.Title`, a dot and `A.Suffix` (the template
string of claim C8).  Default template formatting of an int64 is its decimal
representation.  The function reads only the `A` field of the context, so it
never depends on `Basename`. -/
def renderTrackTitleSuffix (c : FilenameCtx) : Option String :=
  some (toString c.A.Track ++ "-" ++ c.A.Title ++ "." ++ c.A.Suffix)

/-!
The read-only request handlers of the tree revision.  Every request type is
opaque to the handlers (the source ignores the request entirely), and each
handler returns `fuse.Errno(syscall.EROFS)`, with nil node/handle results
where the signature has them.
-/

/-- fuse.Error, as an errno value. -/
abbrev Errno := Int

/-- syscall.EROFS: read-only filesystem (Linux value 30). -/
def eROFS : Errno := 30

/-- fs.Node results (a directory or a file). -/
inductive Node where
  | dir (d : SubDir)
  | file (f : SubFile)

/-- fs.Handle results (opaque). -/
structure Handle where

structure CreateRequest where

structure CreateResponse where

structure FsyncRequest where

structure LinkRequest where

structure MkdirRequest where

structure MknodRequest where

structure RemoveRequest where

structure RemovexattrRequest where

structure RenameRequest where

structure SetattrRequest where

structure SetattrResponse where

structure SetxattrRequest where

structure SymlinkRequest where

/-- Create does nothing, because subfs is read-only. -/
def SubDir.Create (_ : SubDir) (_ : CreateRequest) (_ : CreateResponse) :
    Option Node × Option Handle × Errno :=
  (none, none, eROFS)

/-- Fsync does nothing, because subfs is read-only. -/
def SubDir.Fsync (_ : SubDir) (_ : FsyncRequest) : Errno := eROFS

/-- Link does nothing, because subfs is read-only. -/
def SubDir.Link (_ : SubDir) (_ : LinkRequest) (_ : Node) : Option Node × Errno :=
  (none, eROFS)

/-- Mkdir does nothing, because subfs is read-only. -/
def SubDir.Mkdir (_ : SubDir) (_ : MkdirRequest) : Option Node × Errno :=
  (none, eROFS)

/-- Mknod does nothing, because subfs is read-only. -/
def SubDir.Mknod (_ : SubDir) (_ : MknodRequest) : Option Node × Errno :=
  (none, eROFS)

/-- Remove does nothing, because subfs is read-only. -/
def SubDir.Remove (_ : SubDir) (_ : RemoveRequest) : Errno := eROFS

/-- Removexattr does nothing, because subfs is read-only. -/
def SubDir.Removexattr (_ : SubDir) (_ : RemovexattrRequest) : Errno := eROFS

/-- Rename does nothing, because subfs is read-only. -/
def SubDir.Rename (_ : SubDir) (_ : RenameRequest) (_ : Node) : Errno := eROFS

/-- Setattr does nothing, because subfs is read-only. -/
def SubDir.Setattr (_ : SubDir) (_ : SetattrRequest) (_ : SetattrResponse) : Errno := eROFS

/-- Setxattr does nothing, because subfs is read-only. -/
def SubDir.Setxattr (_ : SubDir) (_ : SetxattrRequest) : Errno := eROFS

/-- Symlink does nothing, because subfs is read-only. -/
def SubDir.Symlink (_ : SubDir) (_ : SymlinkRequest) : Option Node × Errno :=
  (none, eROFS)

end P1

/-! ## Theorems -/

theorem lookupA_upsert_self {α β : Type} [DecidableEq α]
    (m : List (α × β)) (k : α) (v : β) : lookupA (upsert m k v) k = some v := by
  induction m with
  | nil => simp [upsert, lookupA]
  | cons p rest ih =>
    obtain ⟨k', v'⟩ := p
    by_cases h : k' = k
    · simp [upsert, lookupA, h]
    · simp [upsert, lookupA, h, ih]

theorem lookupA_upsert_ne {α β : Type} [DecidableEq α]
    (m : List (α × β)) (k n : α) (v : β) (h : k ≠ n) :
    lookupA (upsert m k v) n = lookupA m n := by
  induction m with
  | nil => simp [upsert, lookupA, h]
  | cons p rest ih =>
    obtain ⟨k', v'⟩ := p
    by_cases h' : k' = k
    · subst h'
      simp [upsert, lookupA, h]
    · simp [upsert, lookupA, h']
      by_cases h'' : k' = n <;> simp [h'', ih]

theorem count_keys_upsert_ne {α β : Type} [DecidableEq α]
    (m : List (α × β)) (k n : α) (v : β) (h : k ≠ n) :
    ((upsert m k v).map Prod.fst).count n = (m.map Prod.fst).count n := by
  induction m with
  | nil => simp [upsert, List.count_cons, h]
  | cons p rest ih =>
    obtain ⟨k', v'⟩ := p
    by_cases h' : k' = k
    · subst h'
      simp [upsert, List.count_cons, h]
    · simp [upsert, h', List.count_cons, ih]

namespace P0

theorem sum_map_erase (sz : String → Int) (c : List String) (n : String) (h : n ∈ c) :
    ((c.erase n).map sz).sum = (c.map sz).sum - sz n := by
  induction c with
  | nil => cases h
  | cons a rest ih =>
    by_cases ha : a = n
    · subst ha
      simp [List.erase_cons_head]
    · have hn : n ∈ rest := by
        cases h with
        | head => exact absurd rfl ha
        | tail _ h' => exact h'
      have : (a :: rest).erase n = a :: rest.erase n := by
        simp [List.erase_cons, ha]
      rw [this]
      simp [ih hn]
      ring

theorem memCache_iff (st : CState) (k : String) : memCache st k ↔ k ∈ st.fileCache := by
  simp [memCache, List.contains, List.elem_iff]

/-- Provided the file is not currently registered, the admission section
either leaves the state alone or registers the file and adds its size. -/
theorem cachePhase_inv (cacheSize : Int) (sz : String → Int) (s : SubFile) (e : Env)
    (st : CState)
    (hsz : s.Size = sz s.FileName)
    (hmem : s.FileName ∉ st.fileCache)
    (hnd : st.fileCache.Nodup)
    (hst : st.cacheTotal = (st.fileCache.map sz).sum) :
    (cachePhase cacheSize s e st).fileCache.Nodup ∧
      (cachePhase cacheSize s e st).cacheTotal =
        ((cachePhase cacheSize s e st).fileCache.map sz).sum := by
  unfold cachePhase
  have hcontains : st.fileCache.contains s.FileName = false := by
    simpa [List.contains, List.elem_iff] using hmem
  split
  · exact ⟨hnd, hst⟩
  split
  · exact ⟨hnd, hst⟩
  split
  · exact ⟨hnd, hst⟩
  cases e.tmpFileErr with
  | some _ => exact ⟨hnd, hst⟩
  | none =>
    cases e.tmpWriteErr with
    | some _ => exact ⟨hnd, hst⟩
    | none =>
      simp only [hcontains]
      constructor
      · simp only [Bool.false_eq_true, if_false]
        exact hnd.append (List.nodup_singleton _) (by simpa [List.disjoint_singleton])
      · simp [hst, hsz]

theorem streamPhase_ok (cacheSize : Int) (s : SubFile) (e : Env) (st st' : CState)
    (bs : Option Bytes) (er : Option Int)
    (h : streamPhase cacheSize s e st = .ok st' bs er) :
    st' = st ∨ st' = cachePhase cacheSize s e st := by
  unfold streamPhase at h
  split at h
  · cases h; exact Or.inl rfl
  split at h
  · cases h; exact Or.inl rfl
  split at h
  · cases h; exact Or.inl rfl
  · cases h; exact Or.inr rfl

/-- One read preserves the cache accounting invariant. -/
theorem ReadAll_inv (cacheSize : Int) (sz : String → Int) (s : SubFile) (e : Env)
    (st st' : CState) (bs : Option Bytes) (er : Option Int)
    (hsz : s.Size = sz s.FileName)
    (hnd : st.fileCache.Nodup)
    (hst : st.cacheTotal = (st.fileCache.map sz).sum)
    (h : ReadAll cacheSize s e st = .ok st' bs er) :
    st'.fileCache.Nodup ∧ st'.cacheTotal = (st'.fileCache.map sz).sum := by
  unfold ReadAll at h
  split at h
  · -- cache hit
    rename_i hm
    have hmem : s.FileName ∈ st.fileCache := (memCache_iff st s.FileName).mp hm
    split at h
    · -- empty buffer
      split at h
      · -- nil error: goroutine panics, contradiction with a completed read
        cases h
      · -- error message present
        rename_i m _
        split at h
        · -- eviction, then fetch
          have hnd1 : (st.fileCache.erase s.FileName).Nodup := hnd.erase _
          have hmem1 : s.FileName ∉ st.fileCache.erase s.FileName := fun hx =>
            ((hnd.mem_erase_iff).mp hx).1 rfl
          have hst1 :
              (CState.mk (st.fileCache.erase s.FileName)
                  (st.cacheTotal + (-1) * s.Size)).cacheTotal =
                ((st.fileCache.erase s.FileName).map sz).sum := by
            show st.cacheTotal + (-1) * s.Size = _
            rw [sum_map_erase sz st.fileCache s.FileName hmem, ← hst, hsz]
            ring
          rcases streamPhase_ok _ _ _ _ _ _ _ h with h1 | h1
          · subst h1; exact ⟨hnd1, hst1⟩
          · subst h1
            exact cachePhase_inv cacheSize sz s e _ hsz hmem1 hnd1 hst1
        · -- other read error: cached (empty) bytes returned, state untouched
          cases h
          exact ⟨hnd, hst⟩
    · -- non-empty buffer: cache hit served, state untouched
      cases h
      exact ⟨hnd, hst⟩
  · -- cache miss
    rename_i hm
    have hmem : s.FileName ∉ st.fileCache := fun hx => hm ((memCache_iff st s.FileName).mpr hx)
    rcases streamPhase_ok _ _ _ _ _ _ _ h with h1 | h1
    · subst h1; exact ⟨hnd, hst⟩
    · subst h1; exact cachePhase_inv cacheSize sz s e st hsz hmem hnd hst

/-- The accounting invariant is preserved by any panic-free sequence of
reads. -/
theorem runOps_inv (cacheSize : Int) (sz : String → Int) (ops : List (SubFile × Env))
    (hcons : ∀ p ∈ ops, (Prod.fst p).Size = sz (Prod.fst p).FileName)
    (st st' : CState)
    (hnd : st.fileCache.Nodup) (hst : st.cacheTotal = (st.fileCache.map sz).sum)
    (h : runOps cacheSize ops st = some st') :
    st'.fileCache.Nodup ∧ st'.cacheTotal = (st'.fileCache.map sz).sum := by
  induction ops generalizing st with
  | nil =>
    simp [runOps] at h
    subst h
    exact ⟨hnd, hst⟩
  | cons p rest ih =>
    obtain ⟨s, e⟩ := p
    have hs : s.Size = sz s.FileName := hcons (s, e) (List.mem_cons_self _ _)
    simp only [runOps] at h
    cases hr : ReadAll cacheSize s e st with
    | crash => simp [hr] at h
    | ok st1 bs er =>
      simp only [hr] at h
      have h1 := ReadAll_inv cacheSize sz s e st st1 bs er hs hnd hst hr
      exact ih (fun q hq => hcons q (List.mem_cons_of_mem _ hq)) st1 h1.1 h1.2 h

/-- Any filename present after the admission section was already present or
is the requested file, whose size then passed the 50 MB ceiling check. -/
theorem cachePhase_mem (cacheSize : Int) (s : SubFile) (e : Env) (st : CState) (n : String)
    (hn : n ∈ (cachePhase cacheSize s e st).fileCache) :
    n ∈ st.fileCache ∨ (n = s.FileName ∧ s.Size ≤ 50 * 1024 * 1024) := by
  unfold cachePhase at hn
  split at hn
  · exact Or.inl hn
  split at hn
  · exact Or.inl hn
  split at hn
  · exact Or.inl hn
  rename_i h50
  split at hn
  · exact Or.inl hn
  split at hn
  · exact Or.inl hn
  · simp only at hn
    split at hn
    · exact Or.inl hn
    · rcases List.mem_append.mp hn with h1 | h1
      · exact Or.inl h1
      · simp only [List.mem_singleton] at h1
        exact Or.inr ⟨h1, le_of_not_lt h50⟩

/-- Any filename present after one read was already present or is the
requested file with size within the 50 MB ceiling. -/
theorem ReadAll_mem (cacheSize : Int) (s : SubFile) (e : Env) (st st' : CState)
    (bs : Option Bytes) (er : Option Int)
    (h : ReadAll cacheSize s e st = .ok st' bs er)
    (n : String) (hn : n ∈ st'.fileCache) :
    n ∈ st.fileCache ∨ (n = s.FileName ∧ s.Size ≤ 50 * 1024 * 1024) := by
  unfold ReadAll at h
  split at h
  · split at h
    · split at h
      · cases h
      · split at h
        · rcases streamPhase_ok _ _ _ _ _ _ _ h with h1 | h1
          · subst h1
            exact Or.inl (List.mem_of_mem_erase hn)
          · subst h1
            rcases cachePhase_mem _ _ _ _ _ hn with h2 | h2
            · exact Or.inl (List.mem_of_mem_erase h2)
            · exact Or.inr h2
        · cases h; exact Or.inl hn
    · cases h; exact Or.inl hn
  · rcases streamPhase_ok _ _ _ _ _ _ _ h with h1 | h1
    · subst h1; exact Or.inl hn
    · subst h1
      rcases cachePhase_mem _ _ _ _ _ hn with h2 | h2
      · exact Or.inl h2
      · exact Or.inr h2

/-- The 50 MB bound on cached entries is preserved by any panic-free
sequence of reads. -/
theorem runOps_le (cacheSize : Int) (sz : String → Int) (ops : List (SubFile × Env))
    (hcons : ∀ p ∈ ops, (Prod.fst p).Size = sz (Prod.fst p).FileName)
    (st st' : CState)
    (hub : ∀ n ∈ st.fileCache, sz n ≤ 50 * 1024 * 1024)
    (h : runOps cacheSize ops st = some st') :
    ∀ n ∈ st'.fileCache, sz n ≤ 50 * 1024 * 1024 := by
  induction ops generalizing st with
  | nil =>
    simp [runOps] at h
    subst h
    exact hub
  | cons p rest ih =>
    obtain ⟨s, e⟩ := p
    have hs : s.Size = sz s.FileName := hcons (s, e) (List.mem_cons_self _ _)
    simp only [runOps] at h
    cases hr : ReadAll cacheSize s e st with
    | crash => simp [hr] at h
    | ok st1 bs er =>
      simp only [hr] at h
      refine ih (fun q hq => hcons q (List.mem_cons_of_mem _ hq)) st1 ?_ h
      intro n hn
      rcases ReadAll_mem cacheSize s e st st1 bs er hr n hn with h1 | ⟨rfl, hle⟩
      · exact hub n h1
      · rw [← hs]
        exact hle
end P0

/-- C1: for every sequence of read operations (cache admissions and cache
evictions) starting from the empty cache, the running total `cacheTotal`
equals the sum of the declared sizes of the entries currently registered in
the cache map `fileCache`; `sz` assigns each filename its declared size and
every read of a filename carries that size. -/
theorem c1_cache_total_invariant (cacheSize : Int) (sz : String → Int)
    (ops : List (P0.SubFile × P0.Env)) (st : P0.CState)
    (hcons : ∀ p ∈ ops, (Prod.fst p).Size = sz (Prod.fst p).FileName)
    (h : P0.runOps cacheSize ops ⟨[], 0⟩ = some st) :
    st.cacheTotal = (st.fileCache.map sz).sum :=
  (P0.runOps_inv cacheSize sz ops hcons ⟨[], 0⟩ st (by simp) (by simp) h).2

theorem c1_cache_total_invariant_witness :
    P0.runOps 100 [(⟨1, 0, "a", 5⟩, ⟨([], some "u"), none, none, [9], none, none, none⟩)]
        ⟨[], 0⟩ = some ⟨["a"], 5⟩ ∧
    (P0.CState.mk ["a"] 5).cacheTotal = ((["a"] : List String).map (fun _ => (5 : Int))).sum :=
  ⟨rfl,
   c1_cache_total_invariant 100 (fun _ => (5 : Int))
     [(⟨1, 0, "a", 5⟩, ⟨([], some "u"), none, none, [9], none, none, none⟩)] ⟨["a"], 5⟩
     (by intro p hp; simp only [List.mem_singleton] at hp; subst hp; rfl) rfl⟩

/-- C5: for every sequence of reads starting from the empty cache, a file
entry whose declared size exceeds the fixed per-file ceiling of 50 MB is
never registered in the cache, regardless of the configured budget. -/
theorem c5_large_files_never_cached (cacheSize : Int) (sz : String → Int)
    (ops : List (P0.SubFile × P0.Env)) (st : P0.CState)
    (hcons : ∀ p ∈ ops, (Prod.fst p).Size = sz (Prod.fst p).FileName)
    (h : P0.runOps cacheSize ops ⟨[], 0⟩ = some st)
    (n : String) (hn : sz n > 50 * 1024 * 1024) :
    n ∉ st.fileCache := fun hmem =>
  absurd (P0.runOps_le cacheSize sz ops hcons ⟨[], 0⟩ st (by simp) h n hmem)
    (not_le.mpr hn)

theorem c5_large_files_never_cached_witness :
    P0.runOps 1000 [(⟨1, 0, "big", 62914560⟩, ⟨([], some "u"), none, none, [9], none, none, none⟩)]
        ⟨[], 0⟩ = some ⟨[], 0⟩ ∧
    (62914560 : Int) > 50 * 1024 * 1024 ∧
    "big" ∉ (P0.CState.mk [] 0).fileCache :=
  ⟨rfl, by norm_num,
   c5_large_files_never_cached 1000 (fun _ => (62914560 : Int))
     [(⟨1, 0, "big", 62914560⟩, ⟨([], some "u"), none, none, [9], none, none, none⟩)] ⟨[], 0⟩
     (by intro p hp; simp only [List.mem_singleton] at hp; subst hp; rfl) rfl
     "big" (by norm_num)⟩

/-- C2 counterexample: a read not served from the cache whose remote stream
open fails completes with nil bytes and a nil fuse error — the caller
receives no error outcome, contradicting the claim that the failure
surfaces as a failed read. -/
theorem c2_open_failure_counterexample :
    P0.ReadAll 100 ⟨7, 0, "f", 10⟩
        ⟨([], some "u"), some "connection refused", none, [], none, none, none⟩ ⟨[], 0⟩ =
      .ok ⟨[], 0⟩ none none := rfl

/-- C2 (amended): for every read of a file entry that is not served from the
cache, if opening the remote byte stream, reading it to completion, or
closing it fails, the read completes with no retry and returns nil bytes
together with a nil error — the failure is only logged, and the caller sees
an empty successful read rather than an error outcome; the cache state is
left unchanged. -/
theorem c2_fetch_failure_returns_nil_nil (cacheSize : Int) (s : P0.SubFile) (e : P0.Env)
    (st : P0.CState)
    (hmiss : s.FileName ∉ st.fileCache)
    (hfail : e.openErr.isSome ∨ e.readErr.isSome ∨ e.closeErr.isSome) :
    P0.ReadAll cacheSize s e st = .ok st none none := by
  have hm : ¬ P0.memCache st s.FileName := fun hx =>
    hmiss ((P0.memCache_iff st s.FileName).mp hx)
  unfold P0.ReadAll
  rw [if_neg hm]
  unfold P0.streamPhase
  cases ho : e.openErr with
  | some _ => rfl
  | none =>
    cases hrd : e.readErr with
    | some _ => rfl
    | none =>
      cases hc : e.closeErr with
      | some _ => rfl
      | none =>
        exfalso
        rcases hfail with hf | hf | hf
        · rw [ho] at hf; cases hf
        · rw [hrd] at hf; cases hf
        · rw [hc] at hf; cases hf

theorem c2_fetch_failure_returns_nil_nil_witness :
    ("f" ∉ (P0.CState.mk [] 0).fileCache) ∧
    P0.ReadAll 100 ⟨7, 0, "f", 10⟩ ⟨([], some "u"), none, some "unexpected EOF", [], none, none, none⟩
        ⟨[], 0⟩ = .ok ⟨[], 0⟩ none none :=
  ⟨by simp,
   c2_fetch_failure_returns_nil_nil 100 ⟨7, 0, "f", 10⟩
     ⟨([], some "u"), none, some "unexpected EOF", [], none, none, none⟩ ⟨[], 0⟩
     (by simp) (Or.inr (Or.inl rfl))⟩

/-- C3: reading the entry "song.mp3" while its cache record points at a
backing file that exists but is empty (`ioutil.ReadFile` returns an empty
buffer and a nil error) makes the goroutine dereference the nil error and
panic instead of evicting and re-fetching; with the backing file absent
(empty buffer, "no such file or directory" error) the same read evicts the
record, decrements the total and successfully re-fetches and re-admits. -/
theorem c3_empty_backing_file_crashes :
    P0.ReadAll 100 ⟨9, 0, "song.mp3", 5⟩ ⟨([], none), none, none, [1], none, none, none⟩
        ⟨["song.mp3"], 5⟩ = .crash ∧
    P0.ReadAll 100 ⟨9, 0, "song.mp3", 5⟩
        ⟨([], some "open song.mp3: no such file or directory"), none, none, [1, 2], none, none, none⟩
        ⟨["song.mp3"], 5⟩ =
      .ok ⟨["song.mp3"], 5⟩ (some [1, 2]) none :=
  ⟨rfl, by decide⟩

/-- C4 counterexample: with the running total exactly at the configured
budget — "at or above" in the claim's words — and a zero-size file, every
admission check passes and a cache record is added, so the cache map does
not stay unchanged. -/
theorem c4_budget_boundary_counterexample :
    (104857600 : Int) ≥ 100 * 1024 * 1024 ∧
    P0.ReadAll 100 ⟨3, 0, "c", 0⟩ ⟨([], some "u"), none, none, [9], none, none, none⟩
        ⟨["a", "b"], 104857600⟩ =
      .ok ⟨["a", "b", "c"], 104857600⟩ (some [9]) none ∧
    (P0.CState.mk ["a", "b", "c"] 104857600).fileCache ≠
      (P0.CState.mk ["a", "b"] 104857600).fileCache :=
  ⟨by norm_num, rfl, by decide⟩

/-- C4 (amended): for every read whose admission check finds the running
total strictly above the configured budget, or whose file size would push
the running total over the budget, the bytes are still fetched from the
network and returned to the caller, and the cache map and running total are
left unchanged (no cache record is added). -/
theorem c4_over_budget_skips_cache (cacheSize : Int) (s : P0.SubFile) (e : P0.Env)
    (st : P0.CState)
    (hmiss : s.FileName ∉ st.fileCache)
    (hopen : e.openErr = none) (hread : e.readErr = none) (hclose : e.closeErr = none)
    (hcond : st.cacheTotal > cacheSize * 1024 * 1024 ∨
      st.cacheTotal + s.Size > cacheSize * 1024 * 1024) :
    P0.ReadAll cacheSize s e st = .ok st (some e.streamBytes) none := by
  have hm : ¬ P0.memCache st s.FileName := fun hx =>
    hmiss ((P0.memCache_iff st s.FileName).mp hx)
  unfold P0.ReadAll
  rw [if_neg hm]
  unfold P0.streamPhase
  rw [hopen, hread, hclose]
  have hph : P0.cachePhase cacheSize s e st = st := by
    unfold P0.cachePhase
    rcases hcond with hc | hc
    · rw [if_pos hc]
    · by_cases h1 : st.cacheTotal > cacheSize * 1024 * 1024
      · rw [if_pos h1]
      · rw [if_neg h1, if_pos hc]
  rw [hph]

theorem c4_over_budget_skips_cache_witness :
    ((200000000 : Int) > 100 * 1024 * 1024 ∨
      (200000000 : Int) + 5 > 100 * 1024 * 1024) ∧
    P0.ReadAll 100 ⟨1, 0, "x", 5⟩ ⟨([], some "u"), none, none, [9], none, none, none⟩
        ⟨[], 200000000⟩ = .ok ⟨[], 200000000⟩ (some [9]) none :=
  ⟨Or.inl (by norm_num),
   c4_over_budget_skips_cache 100 ⟨1, 0, "x", 5⟩
     ⟨([], some "u"), none, none, [9], none, none, none⟩ ⟨[], 200000000⟩
     (by simp) rfl rfl rfl (Or.inl (by norm_num))⟩

/-- C6 counterexample: with a first cycle whose folder-list fetch fails and
a second cycle whose fetches would succeed, `cacheIndexes` performs a single
folder-list fetch and stops — the loop does not attempt the fetch again at
the next interval (which would make two attempts), though the previously
cached (here empty) index data is indeed left in place. -/
theorem c6_refresh_abort_counterexample :
    SFS.cacheIndexes
        [⟨none, fun _ => none⟩,
          ⟨some [⟨1, "Music"⟩], fun _ => some [[⟨5, "Artist"⟩]]⟩] [] = ([], 1) ∧
    (SFS.cacheIndexes
        [⟨none, fun _ => none⟩,
          ⟨some [⟨1, "Music"⟩], fun _ => some [[⟨5, "Artist"⟩]]⟩] []).2 ≠ 2 :=
  ⟨rfl, by decide⟩

/-- C6 (amended): in the periodic index-refresh loop, a failure to fetch the
top-level folder list terminates the loop entirely: previously cached index
data is left in place, but no further refresh cycle — in particular no
further folder-list fetch — is ever attempted. -/
theorem c6_folder_list_failure_ends_loop (c : SFS.CycleEnv) (rest : List SFS.CycleEnv)
    (idx : SFS.IndexMap) (h : c.folders = none) :
    SFS.cacheIndexes (c :: rest) idx = (idx, 1) := by
  unfold SFS.cacheIndexes SFS.runCycle
  rw [h]

theorem c6_folder_list_failure_ends_loop_witness :
    (SFS.CycleEnv.mk none (fun _ => none)).folders = none ∧
    SFS.cacheIndexes
        [⟨none, fun _ => none⟩, ⟨some [⟨1, "Music"⟩], fun _ => some [[⟨5, "A"⟩]]⟩]
        [(⟨2, "Old"⟩, [⟨9, "B"⟩])] = ([(⟨2, "Old"⟩, [⟨9, "B"⟩])], 1) :=
  ⟨rfl,
   c6_folder_list_failure_ends_loop ⟨none, fun _ => none⟩
     [⟨some [⟨1, "Music"⟩], fun _ => some [[⟨5, "A"⟩]]⟩]
     [(⟨2, "Old"⟩, [⟨9, "B"⟩])] rfl⟩

namespace P1

theorem mem_addSet (s : List Int) (x c : Int) (h : c ∈ addSet s x) : c ∈ s ∨ c = x := by
  unfold addSet at h
  split at h
  · exact Or.inl h
  · rcases List.mem_append.mp h with h1 | h1
    · exact Or.inl h1
    · exact Or.inr (List.mem_singleton.mp h1)

/-- The cover-art loop only touches names of the form `<id>.jpg`, so any
other name keeps its file-map binding, its key multiplicity and its dirent
multiplicity. -/
theorem artFold_preserves (n : String) (cs : List Int) (acc : Acc)
    (h : ∀ c ∈ cs, toString c ++ ".jpg" ≠ n) :
    lookupA (cs.foldl artStep acc).files n = lookupA acc.files n ∧
    ((cs.foldl artStep acc).files.map Prod.fst).count n = (acc.files.map Prod.fst).count n ∧
    ((cs.foldl artStep acc).directories.map Dirent.Name).count n =
      (acc.directories.map Dirent.Name).count n := by
  induction cs generalizing acc with
  | nil => exact ⟨rfl, rfl, rfl⟩
  | cons c rest ih =>
    have hc : toString c ++ ".jpg" ≠ n := h c (List.mem_cons_self _ _)
    have hrest := ih (artStep acc c) (fun q hq => h q (List.mem_cons_of_mem _ hq))
    rw [List.foldl_cons]
    refine ⟨?_, ?_, ?_⟩
    · rw [hrest.1]
      exact lookupA_upsert_ne acc.files _ n _ hc
    · rw [hrest.2.1]
      exact count_keys_upsert_ne acc.files _ n _ hc
    · rw [hrest.2.2]
      simp [artStep, List.count_append, hc]
      rw [List.count_eq_zero]
      simp only [List.mem_singleton]
      exact fun hx => hc hx.symm

end P1

/-- C7 counterexample: two audio records in the same directory rendering the
identical filename "3-Song.mp3" produce a returned listing whose dirent
slice contains that name twice — both entries are appended — rather than
only one visible entry for that name. -/
theorem c7_duplicate_dirents_counterexample :
    ((P1.ReadDir P1.renderTrackTitleSuffix
        ⟨[], [⟨1, 0, "Art", "Alb", "Song", "mp3", "", "p1.mp3", 3, 100, 0, 7⟩,
              ⟨2, 0, "Art", "Alb", "Song", "mp3", "", "p2.mp3", 3, 100, 0, 7⟩],
          []⟩).directories.map P1.Dirent.Name).count "3-Song.mp3" = 2 ∧
    ((P1.ReadDir P1.renderTrackTitleSuffix
        ⟨[], [⟨1, 0, "Art", "Alb", "Song", "mp3", "", "p1.mp3", 3, 100, 0, 7⟩,
              ⟨2, 0, "Art", "Alb", "Song", "mp3", "", "p2.mp3", 3, 100, 0, 7⟩],
          []⟩).directories.map P1.Dirent.Name).count "3-Song.mp3" ≠ 1 :=
  ⟨by decide, by decide⟩

/-- C7 (amended): for every directory listing in which two audio records
render an identical filename, the directory's file lookup map contains
exactly one entry under that name, namely the later record's entry
(last-write-wins), and the operation completes without a crash; the returned
dirent slice, however, contains one entry per record, so the shared name
appears twice in the listing. -/
theorem c7_duplicate_name_last_write_wins (render : P1.FilenameCtx → Option String)
    (a1 a2 : P1.Audio) (fn1 fn2 n : String)
    (h1s : a1.Suffix ≠ "") (h2s : a2.Suffix ≠ "")
    (h1t : a1.TranscodedSuffix = "") (h2t : a2.TranscodedSuffix = "")
    (hr1 : render (P1.ctxFor a1 a1.Suffix) = some fn1) (hn1 : P1.sanitizeFilename fn1 = n)
    (hr2 : render (P1.ctxFor a2 a2.Suffix) = some fn2) (hn2 : P1.sanitizeFilename fn2 = n)
    (ha1 : toString a1.CoverArt ++ ".jpg" ≠ n) (ha2 : toString a2.CoverArt ++ ".jpg" ≠ n) :
    lookupA (P1.ReadDir render ⟨[], [a1, a2], []⟩).files n =
      some (P1.audioEntry a2 (a2.Suffix, a2.Size) n) ∧
    ((P1.ReadDir render ⟨[], [a1, a2], []⟩).files.map Prod.fst).count n = 1 ∧
    ((P1.ReadDir render ⟨[], [a1, a2], []⟩).directories.map P1.Dirent.Name).count n = 2 := by
  have hstep1 : P1.audioStep render ⟨[], [], [], []⟩ a1 =
      ⟨[⟨n, .file⟩], [], [(n, P1.audioEntry a1 (a1.Suffix, a1.Size) n)], [a1.CoverArt]⟩ := by
    simp [P1.audioStep, P1.audioVariantStep, h1s, h1t, hr1, hn1, upsert, P1.addSet]
  have hstep2 : P1.audioStep render
      ⟨[⟨n, .file⟩], [], [(n, P1.audioEntry a1 (a1.Suffix, a1.Size) n)], [a1.CoverArt]⟩ a2 =
      ⟨[⟨n, .file⟩, ⟨n, .file⟩], [], [(n, P1.audioEntry a2 (a2.Suffix, a2.Size) n)],
        P1.addSet [a1.CoverArt] a2.CoverArt⟩ := by
    simp [P1.audioStep, P1.audioVariantStep, h2s, h2t, hr2, hn2, upsert]
  have hRD : P1.ReadDir render ⟨[], [a1, a2], []⟩ =
      (P1.addSet [a1.CoverArt] a2.CoverArt).foldl P1.artStep
        ⟨[⟨n, .file⟩, ⟨n, .file⟩], [], [(n, P1.audioEntry a2 (a2.Suffix, a2.Size) n)],
          P1.addSet [a1.CoverArt] a2.CoverArt⟩ := by
    simp [P1.ReadDir, hstep1, hstep2]
  have hart : ∀ c ∈ P1.addSet [a1.CoverArt] a2.CoverArt, toString c ++ ".jpg" ≠ n := by
    intro c hc
    rcases P1.mem_addSet _ _ _ hc with hc1 | hc1
    · rw [List.mem_singleton.mp hc1]
      exact ha1
    · rw [hc1]
      exact ha2
  have hfold := P1.artFold_preserves n (P1.addSet [a1.CoverArt] a2.CoverArt)
    ⟨[⟨n, .file⟩, ⟨n, .file⟩], [], [(n, P1.audioEntry a2 (a2.Suffix, a2.Size) n)],
      P1.addSet [a1.CoverArt] a2.CoverArt⟩ hart
  rw [hRD]
  refine ⟨?_, ?_, ?_⟩
  · rw [hfold.1]
    simp [lookupA]
  · rw [hfold.2.1]
    simp
  · rw [hfold.2.2]
    simp

theorem c7_duplicate_name_last_write_wins_witness :
    (P1.renderTrackTitleSuffix
        (P1.ctxFor ⟨1, 0, "Art", "Alb", "Song", "mp3", "", "p1.mp3", 3, 100, 0, 7⟩ "mp3") =
      some "3-Song.mp3") ∧
    lookupA (P1.ReadDir P1.renderTrackTitleSuffix
        ⟨[], [⟨1, 0, "Art", "Alb", "Song", "mp3", "", "p1.mp3", 3, 100, 0, 7⟩,
              ⟨2, 0, "Art", "Alb", "Song", "mp3", "", "p2.mp3", 3, 100, 0, 7⟩],
          []⟩).files "3-Song.mp3" =
      some (P1.audioEntry ⟨2, 0, "Art", "Alb", "Song", "mp3", "", "p2.mp3", 3, 100, 0, 7⟩
        ("mp3", 100) "3-Song.mp3") :=
  ⟨by decide,
   (c7_duplicate_name_last_write_wins P1.renderTrackTitleSuffix
     ⟨1, 0, "Art", "Alb", "Song", "mp3", "", "p1.mp3", 3, 100, 0, 7⟩
     ⟨2, 0, "Art", "Alb", "Song", "mp3", "", "p2.mp3", 3, 100, 0, 7⟩
     "3-Song.mp3" "3-Song.mp3" "3-Song.mp3"
     (by decide) (by decide) rfl rfl (by decide) (by decide) (by decide) (by decide)
     (by decide) (by decide)).1⟩

/-- C8: under the filename template that writes the track number, a dash,
the title, a dot and the suffix (reading the fields of the raw audio record
`A`), a track with track number 3, title "Song" and suffix "mp3" derives the
filename "3-Song.mp3"; with title "A/B" the path-separator character is
replaced by `_` by the badChars sanitization, deriving "3-A_B.mp3". -/
theorem c8_template_rendering :
    (P1.renderTrackTitleSuffix
        (P1.ctxFor ⟨1, 0, "Art", "Alb", "Song", "mp3", "", "p.mp3", 3, 100, 0, 7⟩ "mp3")).map
      P1.sanitizeFilename = some "3-Song.mp3" ∧
    (P1.renderTrackTitleSuffix
        (P1.ctxFor ⟨1, 0, "Art", "Alb", "A/B", "mp3", "", "p.mp3", 3, 100, 0, 7⟩ "mp3")).map
      P1.sanitizeFilename = some "3-A_B.mp3" :=
  ⟨by decide, by decide⟩

/-- C9: every mutating filesystem operation (create, mkdir, mknod, remove,
rename, link, symlink, set attributes, set/remove extended attributes,
fsync) on a directory node is rejected with the fixed read-only filesystem
error `eROFS`, for every directory node and every request. -/
theorem c9_mutations_rejected_with_erofs :
    ∀ (d : P1.SubDir),
      (∀ (r : P1.CreateRequest) (s : P1.CreateResponse),
        P1.SubDir.Create d r s = (none, none, P1.eROFS)) ∧
      (∀ (r : P1.FsyncRequest), P1.SubDir.Fsync d r = P1.eROFS) ∧
      (∀ (r : P1.LinkRequest) (nd : P1.Node), P1.SubDir.Link d r nd = (none, P1.eROFS)) ∧
      (∀ (r : P1.MkdirRequest), P1.SubDir.Mkdir d r = (none, P1.eROFS)) ∧
      (∀ (r : P1.MknodRequest), P1.SubDir.Mknod d r = (none, P1.eROFS)) ∧
      (∀ (r : P1.RemoveRequest), P1.SubDir.Remove d r = P1.eROFS) ∧
      (∀ (r : P1.RemovexattrRequest), P1.SubDir.Removexattr d r = P1.eROFS) ∧
      (∀ (r : P1.RenameRequest) (nd : P1.Node), P1.SubDir.Rename d r nd = P1.eROFS) ∧
      (∀ (r : P1.SetattrRequest) (s : P1.SetattrResponse),
        P1.SubDir.Setattr d r s = P1.eROFS) ∧
      (∀ (r : P1.SetxattrRequest), P1.SubDir.Setxattr d r = P1.eROFS) ∧
      (∀ (r : P1.SymlinkRequest), P1.SubDir.Symlink d r = (none, P1.eROFS)) :=
  fun _ =>
    ⟨fun _ _ => rfl, fun _ => rfl, fun _ _ => rfl, fun _ => rfl, fun _ => rfl, fun _ => rfl,
      fun _ => rfl, fun _ _ => rfl, fun _ _ => rfl, fun _ => rfl, fun _ => rfl⟩

/-- C10: for every audio record yielding both an original and a transcoded
variant, the template context built for the transcoded variant carries the
original suffix in its `Suffix` field and differs from the original
variant's context only in `Basename`; hence any template that does not read
`Basename` renders the same filename for both variants, and the transcoded
entry replaces the original entry in the directory's file map. -/
theorem c10_transcoded_variant_replaces_original (render : P1.FilenameCtx → Option String)
    (a : P1.Audio) (acc : P1.Acc) (fn : String)
    (hig : ∀ (c : P1.FilenameCtx) (b : String), render c = render { c with Basename := b })
    (hs : a.Suffix ≠ "") (ht : a.TranscodedSuffix ≠ "")
    (hr : render (P1.ctxFor a a.Suffix) = some fn) :
    (P1.ctxFor a a.TranscodedSuffix).Suffix = a.Suffix ∧
    P1.ctxFor a a.TranscodedSuffix =
      { P1.ctxFor a a.Suffix with Basename := P1.trimSuffix a.Path a.TranscodedSuffix } ∧
    render (P1.ctxFor a a.TranscodedSuffix) = some fn ∧
    lookupA (P1.audioStep render acc a).files (P1.sanitizeFilename fn) =
      some (P1.audioEntry a (a.TranscodedSuffix, 0) (P1.sanitizeFilename fn)) := by
  have hctx : P1.ctxFor a a.TranscodedSuffix =
      { P1.ctxFor a a.Suffix with Basename := P1.trimSuffix a.Path a.TranscodedSuffix } := rfl
  have h2 : render (P1.ctxFor a a.TranscodedSuffix) = some fn := by
    rw [hctx, ← hig (P1.ctxFor a a.Suffix) (P1.trimSuffix a.Path a.TranscodedSuffix), hr]
  refine ⟨rfl, hctx, h2, ?_⟩
  simp [P1.audioStep, P1.audioVariantStep, hs, ht, hr, h2, lookupA_upsert_self]

theorem c10_transcoded_variant_replaces_original_witness :
    ((⟨11, 0, "Art", "Alb", "Song", "flac", "mp3", "d/Song.flac", 3, 1000, 200, 7⟩ :
        P1.Audio).Suffix ≠ "") ∧
    ((⟨11, 0, "Art", "Alb", "Song", "flac", "mp3", "d/Song.flac", 3, 1000, 200, 7⟩ :
        P1.Audio).TranscodedSuffix ≠ "") ∧
    lookupA (P1.audioStep P1.renderTrackTitleSuffix ⟨[], [], [], []⟩
        ⟨11, 0, "Art", "Alb", "Song", "flac", "mp3", "d/Song.flac", 3, 1000, 200, 7⟩).files
        (P1.sanitizeFilename "3-Song.flac") =
      some (P1.audioEntry
        ⟨11, 0, "Art", "Alb", "Song", "flac", "mp3", "d/Song.flac", 3, 1000, 200, 7⟩
        ("mp3", 0) (P1.sanitizeFilename "3-Song.flac")) :=
  ⟨by decide, by decide,
   (c10_transcoded_variant_replaces_original P1.renderTrackTitleSuffix
      ⟨11, 0, "Art", "Alb", "Song", "flac", "mp3", "d/Song.flac", 3, 1000, 200, 7⟩
      ⟨[], [], [], []⟩ "3-Song.flac" (fun _ _ => rfl) (by decide) (by decide) rfl).2.2.2⟩
